import Mathlib

/-!
Shallow embedding of the FloatChat NetCDF ingestion pipeline
(`backend/dataset_app/tasks.py`, `backend/dataset_app/models.py`, and the
quality-control extraction of
`backend/fastapi_service/enhanced_argo_processor.py`).

Machine floats are modelled by `FVal` (NaN, signed infinity, or a finite
rational); the code under study only ever tests floats with `np.isnan`,
`np.isinf` and order comparisons, all of which are captured exactly by the
IEEE comparison semantics below (any comparison with NaN is false).
Timestamps are abstracted to natural numbers: the ingestion code stores them
verbatim and no verified property inspects their value.
-/

namespace FloatChat

/-- A Python/numpy float as observed by the ingestion code: NaN, an infinity
(`true` = +∞, `false` = -∞), or a finite value modelled as a rational. -/
inductive FVal where
  | nan : FVal
  | inf : Bool → FVal
  | fin : ℚ → FVal
deriving DecidableEq, Repr

namespace FVal

/-- `np.isnan`. -/
def isnan : FVal → Bool
  | .nan => true
  | _ => false

/-- `np.isinf`. -/
def isinf : FVal → Bool
  | .inf _ => true
  | _ => false

/-- IEEE `x <= y` as used by Python/numpy: false whenever NaN is involved. -/
def fle : FVal → FVal → Bool
  | .nan, _ => false
  | _, .nan => false
  | .inf s, .inf t => !s || t
  | .inf s, .fin _ => !s
  | .fin _, .inf t => t
  | .fin a, .fin b => decide (a ≤ b)

/-- IEEE `x < y`: false whenever NaN is involved. -/
def flt : FVal → FVal → Bool
  | .nan, _ => false
  | _, .nan => false
  | .inf s, .inf t => !s && t
  | .inf s, .fin _ => !s
  | .fin _, .inf t => t
  | .fin a, .fin b => decide (a < b)

/-- A float is finite iff it is neither NaN nor infinite. -/
theorem fin_of_not_nan_not_inf (v : FVal) (h1 : v.isnan = false)
    (h2 : v.isinf = false) : ∃ q : ℚ, v = .fin q := by
  cases v with
  | nan => simp [isnan] at h1
  | inf s => simp [isinf] at h2
  | fin q => exact ⟨q, rfl⟩

end FVal

/-!
## Variable Locator (`tasks.py` lines 145-181)

`var_lower_map = {v.lower(): v for v in variables}` — a dict comprehension in
which a later duplicate lowered name overwrites an earlier one — followed by,
for each canonical channel, taking the first alias present in the map.
-/

/-- ASCII lower-casing of one character, as `str.lower()` does on the
alias/variable names in play. -/
def lowerChar (c : Char) : Char :=
  if 65 ≤ c.toNat ∧ c.toNat ≤ 90 then Char.ofNat (c.toNat + 32) else c

/-- `str.lower()` restricted to ASCII, which is all the alias tables use. -/
def pyLower (s : String) : String := ⟨s.data.map lowerChar⟩

/-- The dict comprehension `{v.lower(): v for v in variables}`: a later entry
overwrites an earlier one with the same key, so lookup scans from the right. -/
def varLowerLookup (varNames : List String) (key : String) : Option String :=
  varNames.reverse.find? (fun v => pyLower v == key)

/-- `for name in aliases: if name in var_lower_map: ... break` — the first
alias that resolves wins. -/
def findFirstAlias (aliases : List String) (varNames : List String) :
    Option String :=
  match aliases with
  | [] => none
  | a :: rest =>
    match varLowerLookup varNames a with
    | some v => some v
    | none => findFirstAlias rest varNames

def latAliases : List String := ["latitude", "lat"]
def lonAliases : List String := ["longitude", "lon"]
def presAliases : List String := ["pres", "pressure", "pres_adjusted"]
def tempAliases : List String := ["temp", "temperature", "temp_adjusted"]
def psalAliases : List String := ["psal", "salinity", "psal_adjusted"]

/-!
## Profile Walker (`tasks.py` lines 244-408, `parse_netcdf_data`)

A NetCDF variable's payload, after masked entries have been filled with NaN
(lines 192-195, 277-278, 295-296, 313-314): a 2-D `[N_PROF, N_LEVELS]` array,
a 1-D array, or a 0-D scalar.
-/

inductive NCArr where
  | d2 : List (List FVal) → NCArr
  | d1 : List FVal → NCArr
  | d0 : FVal → NCArr
deriving DecidableEq, Repr

/-- One `dataset_values` row (`NetCDFValue`, `models.py` lines 28-44) as built
by the walker: `depth` is `None` or a non-NaN float, `value` any float the
filters let through.  Timestamps are abstracted to `ℕ`. -/
structure Record where
  varname : String
  time : ℕ
  lat : FVal
  lon : FVal
  depth : Option FVal
  value : FVal
deriving DecidableEq, Repr

/-- `nc_dataset.variables[name]` on the (unique-keyed) file variable dict. -/
def lookupVar (vars : List (String × NCArr)) (name : String) : Option NCArr :=
  (vars.find? (fun p => p.1 == name)).map Prod.snd

/-- `lat_var[:]` / `lon_var[:]` flattened to one position per profile
(lines 188-195): a 1-D array is used as is, a scalar is wrapped in a
singleton.  A 2-D position array makes `float(latitudes[i])` raise for every
profile, so no record is ever created; we model that as zero profiles. -/
def toProfileList : NCArr → List FVal
  | .d1 xs => xs
  | .d0 v => [v]
  | .d2 _ => []

/-- Pressure levels for profile `i` (lines 268-283).  The element `none`
models the Python `None` sentinel: it appears when the file has no pressure
variable (`pressures = [None]`), when the array is 0-D, or when reading the
row raises and the inner `except` substitutes `[None]`. -/
def profPressures (presArr : Option NCArr) (i : ℕ) : List (Option FVal) :=
  match presArr with
  | none => [none]
  | some (.d2 rows) =>
    match rows.get? i with
    | some row => row.map some
    | none => [none]
  | some (.d1 xs) => xs.map some
  | some (.d0 _) => [none]

/-- Temperature/salinity levels for profile `i` (lines 286-319): a missing
variable gives `[]`, a 2-D array gives row `i` (an out-of-range row raises and
the inner `except` gives `[]`), a 1-D array is shared across profiles, and
indexing a 0-D scalar raises, giving `[]`. -/
def profChannel (arr : Option NCArr) (i : ℕ) : List FVal :=
  match arr with
  | none => []
  | some (.d2 rows) => (rows.get? i).getD []
  | some (.d1 xs) => xs
  | some (.d0 _) => []

/-- Line 325: `depth = float(pressures[li]) if li < len(pressures) and not
np.isnan(pressures[li]) else None`.  When `pressures[li]` is the `None`
sentinel, `np.isnan(None)` raises a `TypeError`, which aborts the whole
profile (`.error`). -/
def depthAt (pressures : List (Option FVal)) (li : ℕ) :
    Except Unit (Option FVal) :=
  match pressures.get? li with
  | none => .ok none
  | some none => .error ()
  | some (some p) => .ok (if p.isnan then none else some p)

/-- Lines 327-355: the temperature (or, with `vname = "salinity"`, the
salinity) record of one level — present when the channel has a value at this
level that is neither NaN nor infinite. -/
def channelRecAt (vname : String) (time : ℕ) (lat lon : FVal)
    (depth : Option FVal) (chans : List FVal) (li : ℕ) : List Record :=
  match chans.get? li with
  | some t =>
    if !t.isnan && !t.isinf then
      [{ varname := vname, time := time, lat := lat, lon := lon,
         depth := depth, value := t : Record }]
    else []
  | none => []

/-- Lines 357-368: the standalone pressure record, emitted when `depth` is
not `None` and the file has a pressure variable. -/
def presRecAt (time : ℕ) (lat lon : FVal) (presPresent : Bool)
    (depth : Option FVal) : List Record :=
  match depth with
  | some d =>
    if presPresent then
      [{ varname := "pressure", time := time, lat := lat, lon := lon,
         depth := some d, value := d : Record }]
    else []
  | none => []

/-- The records appended for one level (lines 324-368), in source order:
temperature, salinity, then standalone pressure. -/
def levelRecords (time : ℕ) (lat lon : FVal) (presPresent : Bool)
    (pressures : List (Option FVal)) (temps sals : List FVal) (li : ℕ) :
    Except Unit (List Record) :=
  match depthAt pressures li with
  | .error e => .error e
  | .ok depth =>
    .ok (channelRecAt "temperature" time lat lon depth temps li ++
         channelRecAt "salinity" time lat lon depth sals li ++
         presRecAt time lat lon presPresent depth)

/-- The level loop (lines 324-368) starting at level `li` with `n` levels
left.  Appends go straight to the shared buffer, so when a level raises, the
records of the earlier levels are kept; the `Bool` reports whether the loop
finished without an exception (only then is the flush check at line 371
reached). -/
def runLevels (time : ℕ) (lat lon : FVal) (presPresent : Bool)
    (pressures : List (Option FVal)) (temps sals : List FVal) :
    ℕ → ℕ → List Record × Bool
  | _, 0 => ([], true)
  | li, n + 1 =>
    match levelRecords time lat lon presPresent pressures temps sals li with
    | .error _ => ([], false)
    | .ok recs =>
      let rest := runLevels time lat lon presPresent pressures temps sals
        (li + 1) n
      (recs ++ rest.1, rest.2)

/-- The per-profile channel data `parse_netcdf_data` hands to the walker,
plus the exception injection `failProfiles` (`failProfiles[i] = true` models
an exception raised while extracting or converting profile `i`'s position,
e.g. an unconvertible latitude). -/
structure Channels where
  lats : List FVal
  lons : List FVal
  times : List ℕ
  now : ℕ
  presArr : Option NCArr
  tempArr : Option NCArr
  psalArr : Option NCArr
  failProfiles : List Bool
deriving Repr

/-- The body of `for prof_idx in range(n_profiles)` (lines 252-368): returns
the records this profile appends to the shared buffer and whether the body
reached the flush check at line 371 (`continue`s and exceptions skip it). -/
def processProfile (ch : Channels) (i : ℕ) : List Record × Bool :=
  if ch.failProfiles.getD i false then ([], false)
  else
    match ch.lats.get? i, ch.lons.get? i with
    | some lat, some lon =>
      let time := ch.times.getD i ch.now
      if lat.isnan || lon.isnan then ([], false)
      else if !(FVal.fle (.fin 20) lon && FVal.fle lon (.fin 150) &&
                FVal.fle (.fin (-60)) lat && FVal.fle lat (.fin 30)) then
        ([], false)
      else
        let pressures := profPressures ch.presArr i
        let temps := profChannel ch.tempArr i
        let sals := profChannel ch.psalArr i
        let maxLevels := max pressures.length (max temps.length sals.length)
        runLevels time lat lon ch.presArr.isSome pressures temps sals 0
          maxLevels
    | _, _ => ([], false)

/-- Record Batcher state: the in-memory buffer `records_to_create` and the
batches already bulk-inserted, in order. -/
structure WalkSt where
  buffer : List Record
  flushes : List (List Record)
deriving DecidableEq, Repr

/-- One iteration of the profile loop followed by the batch check at lines
370-374: a single bulk insert of the whole buffer exactly when the body
reached the check and the buffer holds at least 1000 records. -/
def stepProfile (ch : Channels) (st : WalkSt) (i : ℕ) : WalkSt :=
  let pr := processProfile ch i
  let buf := st.buffer ++ pr.1
  if pr.2 && decide (1000 ≤ buf.length) then
    { buffer := [], flushes := st.flushes ++ [buf] }
  else
    { buffer := buf, flushes := st.flushes }

/-- The whole profile loop. -/
def walkProfiles (ch : Channels) : WalkSt :=
  (List.range ch.lats.length).foldl (stepProfile ch) ⟨[], []⟩

/-!
## `parse_netcdf_data` (tasks.py lines 103-408)

The input abstracts one opened NetCDF file: its variable dict, the timestamps
the time-conversion block (lines 197-240) produced (their computation stores
either converted times or `datetime.now()`; no verified property inspects
them), and the two fault injections (a per-profile extraction exception and a
failing final bulk insert, modelling `PersistenceFailure`).
-/

structure NCInput where
  vars : List (String × NCArr)
  times : List ℕ
  now : ℕ
  failProfiles : List Bool
  finalFlushFails : Bool
deriving Repr

/-- Resolve one optional channel: alias match on the declared names, then the
variable dict.  (The name returned by `findFirstAlias` is drawn from the
dict's keys, so the lookup succeeds whenever the alias matched.) -/
def resolveChannel (inp : NCInput) (aliases : List String) : Option NCArr :=
  (findFirstAlias aliases (inp.vars.map Prod.fst)).bind (lookupVar inp.vars)

/-- The channel data handed to the profile loop, given the resolved latitude
and longitude variable names. -/
def mkChannels (inp : NCInput) (latName lonName : String) : Channels :=
  { lats := toProfileList ((lookupVar inp.vars latName).getD (.d1 []))
    lons := toProfileList ((lookupVar inp.vars lonName).getD (.d1 []))
    times := inp.times
    now := inp.now
    presArr := resolveChannel inp presAliases
    tempArr := resolveChannel inp tempAliases
    psalArr := resolveChannel inp psalAliases
    failProfiles := inp.failProfiles }

/-- `parse_netcdf_data`: resolves channels, raises `ValueError("NetCDF file
must contain latitude and longitude")` when no latitude or no longitude alias
matches (lines 183-185), otherwise walks the profiles and performs the final
bulk insert of the remaining buffer (lines 380-383).  Returns the ordered
list of bulk-inserted batches; `.error` models the exception propagated to
the caller (the function's own `except` block sets the dataset status to
`failed` and re-raises, lines 399-408). -/
def parse_netcdf_data (inp : NCInput) : Except String (List (List Record)) :=
  let varNames := inp.vars.map Prod.fst
  match findFirstAlias latAliases varNames, findFirstAlias lonAliases varNames
    with
  | some latName, some lonName =>
    let st := walkProfiles (mkChannels inp latName lonName)
    if st.buffer.isEmpty then .ok st.flushes
    else if inp.finalFlushFails then .error "bulk create failed"
    else .ok (st.flushes ++ [st.buffer])
  | _, _ => .error "NetCDF file must contain latitude and longitude"

/-- All `dataset_values` rows the run persists. -/
def parsedRecords (inp : NCInput) : List Record :=
  match parse_netcdf_data inp with
  | .ok batches => batches.flatten
  | .error _ => []

/-!
## Task-level state machine
(`process_netcdf_file_task`, tasks.py lines 46-101, and
`generate_embeddings`, lines 410-534)
-/

inductive Status where
  | uploaded | processing | completed | failed
deriving DecidableEq, Repr

/-- One `dataset_embeddings` row (`NetCDFEmbedding`).  The summary text is a
deterministic rendering of the group's statistics; we carry the group itself
(variable, region, matching rows) and treat the rendering composed with the
embedding model as functions of it. -/
structure SummaryData where
  varname : String
  region : String
  rows : List Record
deriving DecidableEq, Repr

structure EmbRow where
  varname : String
  region : String
  embedding : List ℚ
  summary : SummaryData
deriving DecidableEq, Repr

/-- How the embedding model behaves in this run: `unavailable` models
`SENTENCE_TRANSFORMERS_AVAILABLE == False` (or a `None` model), `ok enc`
a reachable model whose `encode` returns `enc`, and `raises` a model whose
load or `encode` call raises (service unreachable). -/
inductive EmbedBackend where
  | unavailable
  | ok (enc : SummaryData → List ℚ)
  | raises

/-- `generate_fallback_embedding` (lines 536-550) applied to a 16-byte MD5
digest: expand the digest cyclically to 768 components, each normalized as
`(byte - 128) / 128.0`. -/
def generate_fallback_embedding (hashBytes : List ℕ) : List ℚ :=
  (List.range 768).map
    (fun i => ((hashBytes.getD (i % hashBytes.length) 0 : ℚ) - 128) / 128)

/-- The dataset row and the two owned tables, as one ingestion run sees
them. -/
structure PState where
  status : Status
  values : List Record
  embeds : List EmbRow
deriving Repr

/-- The four fixed sub-regions (lines 482-487): name, `lat` in `[lo, hi)`,
`lon` in `[lo, hi)` (Django `__gte`/`__lt`). -/
def regions : List (String × (ℚ × ℚ) × (ℚ × ℚ)) :=
  [("Arabian Sea", (0, 30), (40, 80)),
   ("Bay of Bengal", (0, 30), (80, 100)),
   ("Central Indian Ocean", (-30, 0), (60, 100)),
   ("Southern Indian Ocean", (-60, -30), (20, 150))]

/-- The Django filter `lat__gte=lo, lat__lt=hi, lon__gte=lo', lon__lt=hi'`. -/
def inRegion (r : Record) (reg : String × (ℚ × ℚ) × (ℚ × ℚ)) : Bool :=
  FVal.fle (.fin reg.2.1.1) r.lat && FVal.flt r.lat (.fin reg.2.1.2) &&
  FVal.fle (.fin reg.2.2.1) r.lon && FVal.flt r.lon (.fin reg.2.2.2)

/-- `values.values_list('variable', flat=True).distinct()`: the distinct
variable names, in first-occurrence order. -/
def distinctVars (values : List Record) : List String :=
  (values.map Record.varname).dedup

/-- The embedding vector chosen for one summary (lines 464-467 and 512-515):
the model's `encode` when the library is importable and the model loaded,
else the deterministic fallback.  `md5` abstracts
`hashlib.md5(text.encode()).digest()` composed with the summary rendering. -/
def embedVector (md5 : SummaryData → List ℕ) (enc : SummaryData → List ℚ)
    (s : SummaryData) (available : Bool) : List ℚ :=
  if available then enc s else generate_fallback_embedding (md5 s)

/-- The rows `generate_embeddings` builds for one variable (lines 435-526):
one global "Indian Ocean" row, then one row per fixed sub-region that has at
least one matching value. -/
def embedRowsForVar (md5 : SummaryData → List ℕ) (enc : SummaryData → List ℚ)
    (available : Bool) (values : List Record) (v : String) : List EmbRow :=
  let varValues := values.filter (fun r => r.varname == v)
  let globalSummary : SummaryData :=
    { varname := v, region := "Indian Ocean", rows := varValues }
  let globalRow : EmbRow :=
    { varname := v, region := "Indian Ocean"
      embedding := embedVector md5 enc globalSummary available
      summary := globalSummary }
  let regionalRows := regions.filterMap (fun reg =>
    let regVals := varValues.filter (fun r => inRegion r reg)
    if regVals.isEmpty then none
    else
      let s : SummaryData := { varname := v, region := reg.1, rows := regVals }
      some { varname := v, region := reg.1
             embedding := embedVector md5 enc s available
             summary := s })
  globalRow :: regionalRows

/-- `generate_embeddings` (lines 410-534).  Every exception inside it is
caught and only logged (lines 533-534): a raising model load or `encode`
call leaves the embedding table untouched and returns normally.  The `Bool`
is a ghost observation: `true` iff no exception was swallowed. -/
def generate_embeddings (md5 : SummaryData → List ℕ)
    (backend : EmbedBackend) (st : PState) : PState × Bool :=
  if st.values.isEmpty then (st, true)
  else
    match backend with
    | .raises => (st, false)
    | .unavailable =>
      let rows := (distinctVars st.values).map
        (embedRowsForVar md5 (fun _ => []) false st.values) |>.flatten
      ({ st with embeds := st.embeds ++ rows }, true)
    | .ok enc =>
      let rows := (distinctVars st.values).map
        (embedRowsForVar md5 enc true st.values) |>.flatten
      ({ st with embeds := st.embeds ++ rows }, true)

inductive TaskResult where
  | completedR
  | failedR (error : String)
deriving DecidableEq, Repr

/-- `process_netcdf_file_task` (lines 46-101): set `processing`, parse, embed,
set `completed`; any exception sets `failed` and returns a result carrying the
error string.  The second component is the final database state, the third
the ghost "embedder succeeded" flag. -/
def process_netcdf_file_task (md5 : SummaryData → List ℕ)
    (backend : EmbedBackend) (inp : NCInput) (st : PState) :
    TaskResult × PState × Bool :=
  let st1 := { st with status := .processing }
  match parse_netcdf_data inp with
  | .error e => (.failedR e, { st1 with status := .failed }, true)
  | .ok batches =>
    let st2 := { st1 with values := st1.values ++ batches.flatten }
    let g := generate_embeddings md5 backend st2
    (.completedR, { g.1 with status := .completed }, g.2)

/-!
## Quality & Range Filter of the FastAPI service
(`enhanced_argo_processor.py`, `EnhancedArgoProcessor._extract_temperature_data`
lines 271-305 and `_extract_pressure_data` lines 338-361)

`self.quality_flags` and `self.max_depth` come from the injected `Config`;
both are passed as parameters here.  Numpy boolean-mask indexing of
equal-length arrays is `maskFilter`; a length mismatch raises, is caught by
the function's `except`, and yields the empty result (broadcasting of a
length-one operand is not exercised by these inputs and is not modelled).
-/

def maskFilter {α : Type} (xs : List α) (mask : List Bool) : List α :=
  ((xs.zip mask).filter (fun p => p.2)).map Prod.fst

/-- The per-profile arrays `_extract_temperature_data` reads:
`ds.TEMP.isel(N_PROF=prof_idx).values` and friends, `none` when the variable
is absent from the file. -/
structure QCInput where
  temp : Option (List FVal)
  tempQC : Option (List ℤ)
  pres : Option (List FVal)
  presQC : Option (List ℤ)
deriving Repr

/-- `pres[np.isin(pres_qc, quality_flags)]` (lines 290-293 and 347-350):
`none` models the raised exception on a length mismatch. -/
def presAfterQC (qualityFlags : List ℤ) (pres0 : List FVal)
    (presQC : Option (List ℤ)) : Option (List FVal) :=
  match presQC with
  | none => some pres0
  | some pqcs =>
    if pqcs.length = pres0.length then
      some (maskFilter pres0 (pqcs.map (fun q => decide (q ∈ qualityFlags))))
    else none

/-- Lines 281-285: the QC-whitelist stage.  With `TEMP_QC` present, both the
samples and the flag list are masked with `np.isin(temp_qc, quality_flags)`;
`none` models the exception a boolean-index length mismatch raises. -/
def tempAfterQC (qualityFlags : List ℤ) (temp0 : List FVal)
    (tempQC : Option (List ℤ)) : Option (List FVal × List ℤ) :=
  match tempQC with
  | none => some (temp0, [])
  | some qcs =>
    if qcs.length = temp0.length then
      let mask := qcs.map (fun q => decide (q ∈ qualityFlags))
      some (maskFilter temp0 mask, maskFilter qcs mask)
    else none

/-- Lines 295-298: drop NaN samples, NaN pressures, and levels deeper than
`max_depth`, keeping the flag list aligned (the `if temp_qc:` guard skips the
flag filter when the flag list is the empty — falsy — list). -/
def tempDepthFilter (maxDepth : ℚ) (temp1 : List FVal) (qc1 : List ℤ)
    (pres1 : List FVal) : List FVal × List ℤ :=
  if temp1.length = pres1.length then
    let mask := (temp1.zip pres1).map (fun p =>
      !p.1.isnan && !p.2.isnan && FVal.fle p.2 (.fin maxDepth))
    (maskFilter temp1 mask, if qc1.isEmpty then qc1 else maskFilter qc1 mask)
  else ([], [])

/-- `_extract_temperature_data` (lines 271-305): QC-whitelist filter on the
temperature samples, then the NaN/max-depth filter against the (QC-filtered)
pressure column.  Any raised exception is caught and gives `([], [])`. -/
def extract_temperature_data (qualityFlags : List ℤ) (maxDepth : ℚ)
    (inp : QCInput) : List FVal × List ℤ :=
  match inp.temp with
  | none => ([], [])
  | some temp0 =>
    match tempAfterQC qualityFlags temp0 inp.tempQC with
    | none => ([], [])
    | some (temp1, qc1) =>
      match inp.pres with
      | none => (temp1, qc1)
      | some pres0 =>
        match presAfterQC qualityFlags pres0 inp.presQC with
        | none => ([], [])
        | some pres1 => tempDepthFilter maxDepth temp1 qc1 pres1

/-- `_extract_pressure_data` (lines 338-361): QC filter, then drop NaN and
everything above the configured maximum depth. -/
def extract_pressure_data (qualityFlags : List ℤ) (maxDepth : ℚ)
    (pres : Option (List FVal)) (presQC : Option (List ℤ)) : List FVal :=
  match pres with
  | none => []
  | some pres0 =>
    match presAfterQC qualityFlags pres0 presQC with
    | none => []
    | some pres1 =>
      pres1.filter (fun p => !p.isnan && FVal.fle p (.fin maxDepth))

/-!
## The `dataset_values` table and `bulk_create(..., ignore_conflicts=True)`
(`models.py` lines 28-44, `tasks.py` lines 370-383)
-/

structure ValueRow where
  rowId : ℕ
  payload : Record
deriving DecidableEq, Repr

structure ValuesTable where
  rows : List ValueRow
  nextId : ℕ
deriving DecidableEq, Repr

/-- The unique keys `NetCDFValue` declares beyond its auto-generated primary
key.  Its `Meta` declares two (non-unique) indexes and nothing else, so this
list is empty. -/
def netcdfValueUniqueKeys : List (Record → List String) := []

/-- `Model.objects.bulk_create(recs, ignore_conflicts=True)`: each record is
inserted with a fresh auto id unless it collides with an already stored row
on some declared unique key, in which case it is silently skipped. -/
def bulk_create_ignore_conflicts (uniqs : List (Record → List String))
    (t : ValuesTable) (recs : List Record) : ValuesTable :=
  recs.foldl (fun acc r =>
    if uniqs.any (fun k => acc.rows.any (fun row => k row.payload == k r)) then
      acc
    else { rows := acc.rows ++ [⟨acc.nextId, r⟩], nextId := acc.nextId + 1 })
    t

/-- The Record Batcher's flush as `parse_netcdf_data` performs it on the
`dataset_values` table. -/
def flushValues (t : ValuesTable) (recs : List Record) : ValuesTable :=
  bulk_create_ignore_conflicts netcdfValueUniqueKeys t recs

/-!
## Walker lemmas: the batcher neither loses nor duplicates records
-/

lemma step_join (ch : Channels) (st : WalkSt) (i : ℕ) :
    (stepProfile ch st i).flushes.flatten ++ (stepProfile ch st i).buffer =
    st.flushes.flatten ++ (st.buffer ++ (processProfile ch i).1) := by
  unfold stepProfile
  simp only []
  split
  · simp
  · simp [List.append_assoc]

lemma foldl_join (ch : Channels) (is : List ℕ) (st : WalkSt) :
    ((is.foldl (stepProfile ch) st).flushes.flatten ++
      (is.foldl (stepProfile ch) st).buffer) =
    st.flushes.flatten ++ st.buffer ++
      ((is.map (fun i => (processProfile ch i).1)).flatten) := by
  induction is generalizing st with
  | nil => simp
  | cons i rest ih =>
    simp only [List.foldl_cons, List.map_cons, List.flatten_cons]
    rw [ih, step_join]
    simp [List.append_assoc]

lemma walk_join (ch : Channels) :
    (walkProfiles ch).flushes.flatten ++ (walkProfiles ch).buffer =
    ((List.range ch.lats.length).map
      (fun i => (processProfile ch i).1)).flatten := by
  unfold walkProfiles
  rw [foldl_join]
  simp

/-!
## Record invariant lemmas
-/

lemma depthAt_ok (pressures : List (Option FVal)) (li : ℕ) (d : Option FVal)
    (h : depthAt pressures li = .ok d) :
    ∀ p, d = some p → p.isnan = false := by
  unfold depthAt at h
  match hg : pressures.get? li with
  | none => rw [hg] at h; cases h; intro p hp; cases hp
  | some none => rw [hg] at h; cases h
  | some (some q) =>
    rw [hg] at h
    cases h
    intro p hp
    by_cases hq : q.isnan = true
    · simp [hq] at hp
    · simp only [Bool.not_eq_true] at hq
      simp [hq] at hp
      subst hp; exact hq

/-- What is true of every record one level appends. -/
def LevelRecProp (time : ℕ) (lat lon : FVal) (r : Record) : Prop :=
  r.time = time ∧ r.lat = lat ∧ r.lon = lon ∧
  (∀ d, r.depth = some d → d.isnan = false) ∧
  ((r.varname = "temperature" ∨ r.varname = "salinity") →
    r.value.isnan = false ∧ r.value.isinf = false) ∧
  (r.varname = "temperature" ∨ r.varname = "salinity" ∨
    (r.varname = "pressure" ∧ r.depth = some r.value))

lemma channelRecAt_mem (vname : String) (time : ℕ) (lat lon : FVal)
    (depth : Option FVal) (chans : List FVal) (li : ℕ) (r : Record)
    (hr : r ∈ channelRecAt vname time lat lon depth chans li) :
    r.varname = vname ∧ r.time = time ∧ r.lat = lat ∧ r.lon = lon ∧
    r.depth = depth ∧ r.value.isnan = false ∧ r.value.isinf = false := by
  unfold channelRecAt at hr
  split at hr
  · split at hr
    · rename_i t hc
      simp only [List.mem_singleton] at hr
      subst hr
      simp only [Bool.and_eq_true, Bool.not_eq_true'] at hc
      exact ⟨rfl, rfl, rfl, rfl, rfl, hc.1, hc.2⟩
    · simp at hr
  · simp at hr

lemma presRecAt_mem (time : ℕ) (lat lon : FVal) (pp : Bool)
    (depth : Option FVal) (r : Record)
    (hr : r ∈ presRecAt time lat lon pp depth) :
    r.varname = "pressure" ∧ r.time = time ∧ r.lat = lat ∧ r.lon = lon ∧
    r.depth = some r.value ∧ depth = some r.value := by
  unfold presRecAt at hr
  split at hr
  · split at hr
    · simp only [List.mem_singleton] at hr
      subst hr
      exact ⟨rfl, rfl, rfl, rfl, rfl, rfl⟩
    · simp at hr
  · simp at hr

lemma levelRecords_mem (time : ℕ) (lat lon : FVal) (pp : Bool)
    (pressures : List (Option FVal)) (temps sals : List FVal) (li : ℕ)
    (recs : List Record)
    (h : levelRecords time lat lon pp pressures temps sals li = .ok recs)
    (r : Record) (hr : r ∈ recs) : LevelRecProp time lat lon r := by
  unfold levelRecords at h
  split at h
  · cases h
  · rename_i depth hd
    cases h
    have hdp := depthAt_ok pressures li depth hd
    rcases List.mem_append.mp hr with hr' | hr'
    · rcases List.mem_append.mp hr' with ht | hs
      · obtain ⟨h1, h2, h3, h4, h5, h6, h7⟩ :=
          channelRecAt_mem _ _ _ _ _ _ _ _ ht
        refine ⟨h2, h3, h4, ?_, fun _ => ⟨h6, h7⟩, Or.inl h1⟩
        intro d hdep
        exact hdp d (by rw [← h5, hdep])
      · obtain ⟨h1, h2, h3, h4, h5, h6, h7⟩ :=
          channelRecAt_mem _ _ _ _ _ _ _ _ hs
        refine ⟨h2, h3, h4, ?_, fun _ => ⟨h6, h7⟩, Or.inr (Or.inl h1)⟩
        intro d hdep
        exact hdp d (by rw [← h5, hdep])
    · obtain ⟨h1, h2, h3, h4, h5, h6⟩ := presRecAt_mem _ _ _ _ _ _ hr'
      refine ⟨h2, h3, h4, ?_, ?_, Or.inr (Or.inr ⟨h1, h5⟩)⟩
      · intro d hdep
        rw [h5] at hdep
        cases hdep
        exact hdp r.value h6
      · intro hv
        rw [h1] at hv
        simp at hv

lemma runLevels_mem (time : ℕ) (lat lon : FVal) (pp : Bool)
    (pressures : List (Option FVal)) (temps sals : List FVal)
    (li n : ℕ) (r : Record)
    (hr : r ∈ (runLevels time lat lon pp pressures temps sals li n).1) :
    LevelRecProp time lat lon r := by
  induction n generalizing li with
  | zero => simp [runLevels] at hr
  | succ n ih =>
    unfold runLevels at hr
    match hl : levelRecords time lat lon pp pressures temps sals li with
    | .error e => rw [hl] at hr; simp at hr
    | .ok recs =>
      rw [hl] at hr
      simp only [List.mem_append] at hr
      rcases hr with hr | hr
      · exact levelRecords_mem time lat lon pp pressures temps sals li recs hl
          r hr
      · exact ih (li + 1) hr

/-- A value squeezed between two finite comparisons that both hold is itself
finite and within the bounds. -/
lemma fle_fin_bounds {a b : ℚ} {v : FVal} (h1 : FVal.fle (.fin a) v = true)
    (h2 : FVal.fle v (.fin b) = true) :
    ∃ q : ℚ, v = .fin q ∧ a ≤ q ∧ q ≤ b := by
  match v with
  | .nan => simp [FVal.fle] at h1
  | .inf s =>
    simp only [FVal.fle] at h1 h2
    subst h1
    simp at h2
  | .fin q =>
    simp only [FVal.fle, decide_eq_true_eq] at h1 h2
    exact ⟨q, rfl, h1, h2⟩

/-- What is true of every record profile `i` appends. -/
def ProfileRecProp (ch : Channels) (i : ℕ) (r : Record) : Prop :=
  ch.lats.get? i = some r.lat ∧ ch.lons.get? i = some r.lon ∧
  (∃ la : ℚ, r.lat = .fin la ∧ -60 ≤ la ∧ la ≤ 30) ∧
  (∃ lo : ℚ, r.lon = .fin lo ∧ 20 ≤ lo ∧ lo ≤ 150) ∧
  r.time = ch.times.getD i ch.now ∧
  (∀ d, r.depth = some d → d.isnan = false) ∧
  ((r.varname = "temperature" ∨ r.varname = "salinity") →
    r.value.isnan = false ∧ r.value.isinf = false) ∧
  (r.varname = "temperature" ∨ r.varname = "salinity" ∨
    (r.varname = "pressure" ∧ r.depth = some r.value))

lemma processProfile_mem (ch : Channels) (i : ℕ) (r : Record)
    (hr : r ∈ (processProfile ch i).1) : ProfileRecProp ch i r := by
  unfold processProfile at hr
  split at hr
  · simp at hr
  · split at hr
    case _ lat lon hla hlo =>
      simp only [] at hr
      split at hr
      · simp at hr
      · split at hr
        · simp at hr
        · rename_i hn hb
          have hlem := runLevels_mem (ch.times.getD i ch.now) lat lon
            ch.presArr.isSome (profPressures ch.presArr i)
            (profChannel ch.tempArr i) (profChannel ch.psalArr i) 0
            (max (profPressures ch.presArr i).length
              (max (profChannel ch.tempArr i).length
                (profChannel ch.psalArr i).length)) r hr
          obtain ⟨htime, hrlat, hrlon, hdep, hval, hvar⟩ := hlem
          simp only [Bool.not_eq_true', Bool.not_eq_false] at hb
          simp only [Bool.and_eq_true] at hb
          obtain ⟨⟨⟨h20, h150⟩, hm60⟩, h30⟩ := hb
          obtain ⟨lo, hlo', hlo1, hlo2⟩ := fle_fin_bounds h20 h150
          obtain ⟨la, hla', hla1, hla2⟩ := fle_fin_bounds hm60 h30
          subst hrlat hrlon
          exact ⟨by rw [hla], by rw [hlo], ⟨la, hla', hla1, hla2⟩,
            ⟨lo, hlo', hlo1, hlo2⟩, htime, hdep, hval, hvar⟩
    case _ => simp at hr

/-!
## Shape lemmas for `parse_netcdf_data` and the task
-/

lemma parse_missing_latlon (inp : NCInput)
    (h : findFirstAlias latAliases (inp.vars.map Prod.fst) = none ∨
         findFirstAlias lonAliases (inp.vars.map Prod.fst) = none) :
    parse_netcdf_data inp =
      .error "NetCDF file must contain latitude and longitude" := by
  unfold parse_netcdf_data
  rcases h with h | h <;>
    rcases hlat : findFirstAlias latAliases (inp.vars.map Prod.fst) with
      _ | latName <;>
    rcases hlon : findFirstAlias lonAliases (inp.vars.map Prod.fst) with
      _ | lonName <;>
    simp_all

lemma parse_resolved (inp : NCInput) (latName lonName : String)
    (hlat : findFirstAlias latAliases (inp.vars.map Prod.fst) = some latName)
    (hlon : findFirstAlias lonAliases (inp.vars.map Prod.fst) = some lonName) :
    parse_netcdf_data inp =
      (if (walkProfiles (mkChannels inp latName lonName)).buffer.isEmpty then
        .ok (walkProfiles (mkChannels inp latName lonName)).flushes
      else if inp.finalFlushFails then .error "bulk create failed"
      else .ok ((walkProfiles (mkChannels inp latName lonName)).flushes ++
        [(walkProfiles (mkChannels inp latName lonName)).buffer])) := by
  unfold parse_netcdf_data
  simp only [hlat, hlon]

lemma parse_ok_flatten (inp : NCInput) (latName lonName : String)
    (hlat : findFirstAlias latAliases (inp.vars.map Prod.fst) = some latName)
    (hlon : findFirstAlias lonAliases (inp.vars.map Prod.fst) = some lonName)
    (batches : List (List Record))
    (h : parse_netcdf_data inp = .ok batches) :
    batches.flatten =
      ((List.range (mkChannels inp latName lonName).lats.length).map
        (fun i => (processProfile (mkChannels inp latName lonName) i).1)).flatten
    := by
  rw [parse_resolved inp latName lonName hlat hlon] at h
  rw [← walk_join]
  split at h
  · rename_i hemp
    cases h
    rw [List.isEmpty_iff] at hemp
    rw [hemp]
    simp
  · split at h
    · cases h
    · cases h
      simp

lemma parsedRecords_of_ok (inp : NCInput) (batches : List (List Record))
    (h : parse_netcdf_data inp = .ok batches) :
    parsedRecords inp = batches.flatten := by
  unfold parsedRecords
  split
  · rename_i b hb
    rw [h] at hb
    cases hb
    rfl
  · rename_i e he
    rw [h] at he
    cases he

lemma parse_ok_of_no_finalFlushFail (inp : NCInput)
    (latName lonName : String)
    (hlat : findFirstAlias latAliases (inp.vars.map Prod.fst) = some latName)
    (hlon : findFirstAlias lonAliases (inp.vars.map Prod.fst) = some lonName)
    (hff : inp.finalFlushFails = false) :
    ∃ batches, parse_netcdf_data inp = .ok batches := by
  rw [parse_resolved inp latName lonName hlat hlon]
  split
  · exact ⟨_, rfl⟩
  · rw [hff]
    simp

lemma parsedRecords_mem (inp : NCInput) (r : Record)
    (hr : r ∈ parsedRecords inp) :
    ∃ latName lonName i,
      findFirstAlias latAliases (inp.vars.map Prod.fst) = some latName ∧
      findFirstAlias lonAliases (inp.vars.map Prod.fst) = some lonName ∧
      r ∈ (processProfile (mkChannels inp latName lonName) i).1 := by
  unfold parsedRecords at hr
  rcases hlat : findFirstAlias latAliases (inp.vars.map Prod.fst) with
    _ | latName
  · rw [parse_missing_latlon inp (Or.inl hlat)] at hr
    simp at hr
  · rcases hlon : findFirstAlias lonAliases (inp.vars.map Prod.fst) with
      _ | lonName
    · rw [parse_missing_latlon inp (Or.inr hlon)] at hr
      simp at hr
    · match hp : parse_netcdf_data inp with
      | .error e => rw [hp] at hr; simp at hr
      | .ok batches =>
        rw [hp] at hr
        simp only [] at hr
        rw [parse_ok_flatten inp latName lonName hlat hlon batches hp] at hr
        rw [List.mem_flatten] at hr
        obtain ⟨l, hl, hrl⟩ := hr
        rw [List.mem_map] at hl
        obtain ⟨i, _, hli⟩ := hl
        exact ⟨latName, lonName, i, rfl, rfl, by rw [hli]; exact hrl⟩

lemma generate_embeddings_status (md5 : SummaryData → List ℕ)
    (backend : EmbedBackend) (st : PState) :
    (generate_embeddings md5 backend st).1.status = st.status ∧
    (generate_embeddings md5 backend st).1.values = st.values := by
  unfold generate_embeddings
  split
  · simp
  · split <;> simp

lemma task_parse_error (md5 : SummaryData → List ℕ) (backend : EmbedBackend)
    (inp : NCInput) (st : PState) (e : String)
    (h : parse_netcdf_data inp = .error e) :
    process_netcdf_file_task md5 backend inp st =
      (.failedR e, { st with status := .failed }, true) := by
  unfold process_netcdf_file_task
  rw [h]

lemma task_parse_ok (md5 : SummaryData → List ℕ) (backend : EmbedBackend)
    (inp : NCInput) (st : PState) (batches : List (List Record))
    (h : parse_netcdf_data inp = .ok batches) :
    (process_netcdf_file_task md5 backend inp st).1 = .completedR ∧
    (process_netcdf_file_task md5 backend inp st).2.1.status = .completed ∧
    (process_netcdf_file_task md5 backend inp st).2.1.values =
      st.values ++ batches.flatten := by
  unfold process_netcdf_file_task
  rw [h]
  simp only []
  refine ⟨trivial, trivial, ?_⟩
  have := generate_embeddings_status md5 backend
    { st with status := .processing, values := st.values ++ batches.flatten }
  exact this.2

/-!
## Boolean-mask indexing lemmas
-/

lemma maskFilter_mem {α : Type} (xs : List α) (mask : List Bool) (x : α)
    (hx : x ∈ maskFilter xs mask) : x ∈ xs := by
  unfold maskFilter at hx
  rw [List.mem_map] at hx
  obtain ⟨p, hp, hpx⟩ := hx
  rw [List.mem_filter] at hp
  subst hpx
  exact (List.of_mem_zip hp.1).1

lemma mem_zip_map_self {α β : Type} (f : α → β) :
    ∀ (xs : List α) (p : α × β), p ∈ xs.zip (xs.map f) → p.2 = f p.1 := by
  intro xs
  induction xs with
  | nil => intro p hp; simp at hp
  | cons a rest ih =>
    intro p hp
    simp only [List.map_cons, List.zip_cons_cons, List.mem_cons] at hp
    rcases hp with hp | hp
    · subst hp; rfl
    · exact ih p hp

lemma maskFilter_map_pred {α : Type} (xs : List α) (f : α → Bool) (x : α)
    (hx : x ∈ maskFilter xs (xs.map f)) : f x = true := by
  unfold maskFilter at hx
  rw [List.mem_map] at hx
  obtain ⟨p, hp, hpx⟩ := hx
  rw [List.mem_filter] at hp
  subst hpx
  rw [← mem_zip_map_self f xs p hp.1]
  exact hp.2

lemma maskFilter_length_eq {α β : Type} :
    ∀ (mask : List Bool) (xs : List α) (ys : List β),
    xs.length = ys.length →
    (maskFilter xs mask).length = (maskFilter ys mask).length := by
  intro mask
  induction mask with
  | nil =>
    intro xs ys _
    simp [maskFilter]
  | cons b rest ih =>
    intro xs ys h
    match xs, ys with
    | [], [] => rfl
    | [], y :: ys' => simp at h
    | x :: xs', [] => simp at h
    | x :: xs', y :: ys' =>
      simp only [List.length_cons, Nat.succ.injEq] at h
      have hrec := ih xs' ys' h
      unfold maskFilter at hrec ⊢
      simp only [List.zip_cons_cons, List.filter_cons]
      cases b
      · simpa using hrec
      · simpa using hrec

/-!
## Concrete fixtures used by witnesses and counterexamples
-/

/-- A concrete stand-in for `hashlib.md5(...).digest()`. -/
def md5c : SummaryData → List ℕ := fun _ => List.range 16

def pstate0 : PState := { status := .uploaded, values := [], embeds := [] }

/-- A file whose variables contain no latitude or longitude alias. -/
def noLatLonInp : NCInput :=
  { vars := [("temp", .d1 [.fin 20])], times := [], now := 0,
    failProfiles := [], finalFlushFails := false }

/-- A minimal valid file: one in-region profile, one temperature level. -/
def inpOneTemp : NCInput :=
  { vars := [("lat", .d1 [.fin 10]), ("lon", .d1 [.fin 80]),
             ("pres", .d1 [.nan]), ("temp", .d1 [.fin 20])],
    times := [], now := 0, failProfiles := [], finalFlushFails := false }

/-- The single record `inpOneTemp` produces. -/
def recOneTemp : Record :=
  { varname := "temperature", time := 0, lat := .fin 10, lon := .fin 80,
    depth := none, value := .fin 20 }

/-- A file whose single profile sits outside the Indian-Ocean box
(longitude 10° < 20°). -/
def inpOutBox : NCInput :=
  { vars := [("lat", .d1 [.fin 10]), ("lon", .d1 [.fin 10]),
             ("pres", .d1 [.nan]), ("temp", .d1 [.fin 20])],
    times := [], now := 0, failProfiles := [], finalFlushFails := false }

/-!
## Claim C2 — missing position variables abort before any record
-/

/-- C2: if the file's variables match no latitude alias or no longitude
alias, `parse_netcdf_data` raises the missing-required-variable error
(`ValueError("NetCDF file must contain latitude and longitude")`), the task
ends with the dataset status `failed` and that error reported in its result,
and neither a `dataset_values` row nor an embedding row is written. -/
theorem C2_missing_position_aborts (md5 : SummaryData → List ℕ)
    (backend : EmbedBackend) (inp : NCInput) (st : PState)
    (h : findFirstAlias latAliases (inp.vars.map Prod.fst) = none ∨
         findFirstAlias lonAliases (inp.vars.map Prod.fst) = none) :
    parse_netcdf_data inp =
      .error "NetCDF file must contain latitude and longitude" ∧
    (process_netcdf_file_task md5 backend inp st).1 =
      .failedR "NetCDF file must contain latitude and longitude" ∧
    (process_netcdf_file_task md5 backend inp st).2.1.status = .failed ∧
    (process_netcdf_file_task md5 backend inp st).2.1.values = st.values ∧
    (process_netcdf_file_task md5 backend inp st).2.1.embeds = st.embeds := by
  have hp := parse_missing_latlon inp h
  have ht := task_parse_error md5 backend inp st _ hp
  rw [ht]
  exact ⟨hp, rfl, rfl, rfl, rfl⟩

theorem C2_witness :
    (findFirstAlias latAliases (noLatLonInp.vars.map Prod.fst) = none ∨
     findFirstAlias lonAliases (noLatLonInp.vars.map Prod.fst) = none) ∧
    (parse_netcdf_data noLatLonInp =
      .error "NetCDF file must contain latitude and longitude" ∧
    (process_netcdf_file_task md5c .unavailable noLatLonInp pstate0).1 =
      .failedR "NetCDF file must contain latitude and longitude" ∧
    (process_netcdf_file_task md5c .unavailable noLatLonInp pstate0).2.1.status
      = .failed ∧
    (process_netcdf_file_task md5c .unavailable noLatLonInp pstate0).2.1.values
      = pstate0.values ∧
    (process_netcdf_file_task md5c .unavailable noLatLonInp pstate0).2.1.embeds
      = pstate0.embeds) :=
  ⟨Or.inl (by decide),
   C2_missing_position_aborts md5c .unavailable noLatLonInp pstate0
     (Or.inl (by decide))⟩

/-!
## Claim C5 — geographic bounding box
-/

/-- C5: every persisted record's position is finite and lies inside the
hard-coded Indian-Ocean box (20° ≤ lon ≤ 150, -60° ≤ lat ≤ 30); moreover the
stored position is exactly the profile's original position (never clipped),
and a profile whose position falls outside the box is dropped entirely —
its iteration produces no record at all. -/
theorem C5_bounding_box :
    (∀ inp r, r ∈ parsedRecords inp →
      ∃ la lo : ℚ, r.lat = .fin la ∧ r.lon = .fin lo ∧
        20 ≤ lo ∧ lo ≤ 150 ∧ -60 ≤ la ∧ la ≤ 30) ∧
    (∀ ch i r, r ∈ (processProfile ch i).1 →
      ch.lats.get? i = some r.lat ∧ ch.lons.get? i = some r.lon) ∧
    (∀ ch i lat lon, ch.lats.get? i = some lat → ch.lons.get? i = some lon →
      (FVal.fle (.fin 20) lon && FVal.fle lon (.fin 150) &&
       FVal.fle (.fin (-60)) lat && FVal.fle lat (.fin 30)) = false →
      processProfile ch i = ([], false)) := by
  refine ⟨?_, ?_, ?_⟩
  · intro inp r hr
    obtain ⟨latName, lonName, i, _, _, hmem⟩ := parsedRecords_mem inp r hr
    obtain ⟨_, _, ⟨la, hla, hla1, hla2⟩, ⟨lo, hlo, hlo1, hlo2⟩, _, _, _, _⟩ :=
      processProfile_mem _ _ _ hmem
    exact ⟨la, lo, hla, hlo, hlo1, hlo2, hla1, hla2⟩
  · intro ch i r hr
    obtain ⟨h1, h2, _⟩ := processProfile_mem ch i r hr
    exact ⟨h1, h2⟩
  · intro ch i lat lon hla hlo hbox
    unfold processProfile
    split
    · rfl
    · split
      case _ lat' lon' hla' hlo' =>
        rw [hla] at hla'
        rw [hlo] at hlo'
        injection hla' with h1
        injection hlo' with h2
        subst h1
        subst h2
        simp only []
        by_cases hn : (lat.isnan || lon.isnan) = true
        · rw [if_pos hn]
        · rw [if_neg hn]
          simp [hbox]
      case _ => rfl

theorem C5_witness :
    (∃ r, r ∈ parsedRecords inpOneTemp ∧
      ∃ la lo : ℚ, r.lat = .fin la ∧ r.lon = .fin lo ∧
        20 ≤ lo ∧ lo ≤ 150 ∧ -60 ≤ la ∧ la ≤ 30) ∧
    processProfile (mkChannels inpOutBox "lat" "lon") 0 = ([], false) := by
  constructor
  · refine ⟨recOneTemp, ?_, ?_⟩
    · decide
    · exact C5_bounding_box.1 inpOneTemp recOneTemp (by decide)
  · exact C5_bounding_box.2.2 (mkChannels inpOutBox "lat" "lon") 0
      (.fin 10) (.fin 10) (by decide) (by decide) (by decide)

/-!
## Claim C10 — per-profile fault isolation
-/

/-- C10: when an exception is raised while extracting profile `i`'s data
(injected through `failProfiles`), that profile's loop iteration yields no
record and does not reach the flush check, the run itself still succeeds
(provided the final flush does not independently fail), the persisted rows
are exactly the concatenation of every profile's contribution — so the other
profiles' records are all kept — and the dataset still ends `completed`,
not `failed`. -/
theorem C10_profile_fault_isolation (md5 : SummaryData → List ℕ)
    (backend : EmbedBackend) (inp : NCInput) (st : PState)
    (latName lonName : String) (i : ℕ)
    (hlat : findFirstAlias latAliases (inp.vars.map Prod.fst) = some latName)
    (hlon : findFirstAlias lonAliases (inp.vars.map Prod.fst) = some lonName)
    (hfail : inp.failProfiles.getD i false = true)
    (hff : inp.finalFlushFails = false) :
    processProfile (mkChannels inp latName lonName) i = ([], false) ∧
    (∃ batches, parse_netcdf_data inp = .ok batches) ∧
    parsedRecords inp =
      List.flatten (List.map
        (fun j => (processProfile (mkChannels inp latName lonName) j).1)
        (List.range (mkChannels inp latName lonName).lats.length)) ∧
    (process_netcdf_file_task md5 backend inp st).1 = .completedR ∧
    (process_netcdf_file_task md5 backend inp st).2.1.status = .completed := by
  obtain ⟨batches, hp⟩ :=
    parse_ok_of_no_finalFlushFail inp latName lonName hlat hlon hff
  refine ⟨?_, ⟨batches, hp⟩, ?_, ?_, ?_⟩
  · unfold processProfile
    rw [if_pos]
    exact hfail
  · unfold parsedRecords
    rw [hp]
    exact parse_ok_flatten inp latName lonName hlat hlon batches hp
  · exact (task_parse_ok md5 backend inp st batches hp).1
  · exact (task_parse_ok md5 backend inp st batches hp).2.1

/-- A two-profile file in which extracting profile 0 raises (injected) while
profile 1 is valid. -/
def inpFail0 : NCInput :=
  { vars := [("lat", .d1 [.fin 11, .fin 10]), ("lon", .d1 [.fin 81, .fin 80]),
             ("pres", .d1 [.nan]), ("temp", .d1 [.fin 20])],
    times := [], now := 0, failProfiles := [true, false],
    finalFlushFails := false }

theorem C10_witness :
    (findFirstAlias latAliases (inpFail0.vars.map Prod.fst) = some "lat" ∧
     findFirstAlias lonAliases (inpFail0.vars.map Prod.fst) = some "lon" ∧
     inpFail0.failProfiles.getD 0 false = true ∧
     inpFail0.finalFlushFails = false) ∧
    (processProfile (mkChannels inpFail0 "lat" "lon") 0 = ([], false) ∧
     (∃ batches, parse_netcdf_data inpFail0 = .ok batches) ∧
     parsedRecords inpFail0 =
       List.flatten (List.map
         (fun j => (processProfile (mkChannels inpFail0 "lat" "lon") j).1)
         (List.range (mkChannels inpFail0 "lat" "lon").lats.length)) ∧
     (process_netcdf_file_task md5c .unavailable inpFail0 pstate0).1 =
       .completedR ∧
     (process_netcdf_file_task md5c .unavailable inpFail0 pstate0).2.1.status
       = .completed) :=
  ⟨⟨by decide, by decide, by decide, rfl⟩,
   C10_profile_fault_isolation md5c .unavailable inpFail0 pstate0 "lat" "lon"
     0 (by decide) (by decide) (by decide) rfl⟩

/-!
## Claim C1 — value finiteness and the maximum-depth cutoff
-/

/-- A file with an in-box profile whose pressure levels are 9999 dbar and
+∞, with finite temperatures at both levels. -/
def inpDeep : NCInput :=
  { vars := [("lat", .d1 [.fin 10]), ("lon", .d1 [.fin 80]),
             ("pres", .d1 [.fin 9999, .inf true]),
             ("temp", .d1 [.fin 25, .fin 26])],
    times := [], now := 0, failProfiles := [], finalFlushFails := false }

/-- C1 as stated is false on `parse_netcdf_data`: with the configured maximum
depth 2000 of Scenario B, the run on `inpDeep` persists a record whose depth
is 9999 (no max-depth cutoff exists in `tasks.py`), and it also persists a
pressure record whose stored `value` is +∞ (only NaN is filtered for
pressures, not infinity). -/
theorem C1_counterexample :
    ¬ (∀ r ∈ parsedRecords inpDeep,
        r.value.isinf = false ∧
        (∀ d, r.depth = some d → FVal.fle d (.fin 2000) = true)) := by
  decide

/-- C1 amended: temperature and salinity records always store finite values
and any non-null stored depth is non-NaN, but `parse_netcdf_data` applies no
maximum-depth cutoff at all (and a pressure record's value — equal to its
depth — may be infinite).  The max-depth rule of the claim lives only in the
FastAPI `EnhancedArgoProcessor`: every pressure its `_extract_pressure_data`
returns is non-NaN and at most `max_depth`. -/
theorem C1_amended_finiteness (qualityFlags : List ℤ) (maxDepth : ℚ)
    (pres : Option (List FVal)) (presQC : Option (List ℤ)) :
    (∀ inp r, r ∈ parsedRecords inp →
      ((r.varname = "temperature" ∨ r.varname = "salinity") →
        ∃ q : ℚ, r.value = .fin q) ∧
      (∀ d, r.depth = some d → d.isnan = false) ∧
      (r.varname = "temperature" ∨ r.varname = "salinity" ∨
        (r.varname = "pressure" ∧ r.depth = some r.value))) ∧
    (∀ p ∈ extract_pressure_data qualityFlags maxDepth pres presQC,
      p.isnan = false ∧ FVal.fle p (.fin maxDepth) = true) := by
  constructor
  · intro inp r hr
    obtain ⟨latName, lonName, i, _, _, hmem⟩ := parsedRecords_mem inp r hr
    obtain ⟨_, _, _, _, _, hdep, hval, hvar⟩ := processProfile_mem _ _ _ hmem
    refine ⟨?_, hdep, hvar⟩
    intro hv
    obtain ⟨h1, h2⟩ := hval hv
    exact FVal.fin_of_not_nan_not_inf _ h1 h2
  · intro p hp
    unfold extract_pressure_data at hp
    split at hp
    · simp at hp
    · split at hp
      · simp at hp
      · rw [List.mem_filter] at hp
        have h2 := hp.2
        simp only [Bool.and_eq_true, Bool.not_eq_true'] at h2
        exact ⟨h2.1, h2.2⟩

theorem C1_witness :
    (recOneTemp ∈ parsedRecords inpOneTemp ∧
     FVal.fin 1500 ∈ extract_pressure_data [1, 2] 2000
       (some [.fin 1500, .fin 9999, .nan]) none) ∧
    ((((recOneTemp.varname = "temperature" ∨ recOneTemp.varname = "salinity")
        → ∃ q : ℚ, recOneTemp.value = .fin q) ∧
      (∀ d, recOneTemp.depth = some d → d.isnan = false) ∧
      (recOneTemp.varname = "temperature" ∨ recOneTemp.varname = "salinity" ∨
        (recOneTemp.varname = "pressure" ∧
          recOneTemp.depth = some recOneTemp.value))) ∧
     ((FVal.fin 1500).isnan = false ∧
      FVal.fle (.fin 1500) (.fin 2000) = true)) :=
  ⟨⟨by decide, by decide⟩,
   ⟨(C1_amended_finiteness [1, 2] 2000 (some [.fin 1500, .fin 9999, .nan])
       none).1 inpOneTemp recOneTemp (by decide),
    (C1_amended_finiteness [1, 2] 2000 (some [.fin 1500, .fin 9999, .nan])
       none).2 (.fin 1500) (by decide)⟩⟩

/-!
## Claim C3 — dataset lifecycle state machine
-/

/-- C3 as stated is false: on a valid file, with an embedding model whose
load or `encode` call raises, the run still ends with status `completed`
even though the Derived-Summary Embedder did not succeed (the ghost flag
returned by `generate_embeddings` records the swallowed exception). -/
theorem C3_counterexample :
    (process_netcdf_file_task md5c .raises inpOneTemp pstate0).2.2 = false ∧
    (process_netcdf_file_task md5c .raises inpOneTemp pstate0).2.1.status =
      .completed := by
  constructor
  · decide
  · decide

/-- C3 amended: the terminal status of every run is `completed` or `failed`,
never a dangling `processing`; the status is `completed` exactly when
extraction — including the final flush — succeeded, regardless of whether
the embedder succeeded (its errors are caught and only logged inside
`generate_embeddings`); and any extraction error is reported to the caller
in the task's return value together with the `failed` status. -/
theorem C3_amended_lifecycle (md5 : SummaryData → List ℕ)
    (backend : EmbedBackend) (inp : NCInput) (st : PState) :
    ((process_netcdf_file_task md5 backend inp st).2.1.status = .completed ∨
     (process_netcdf_file_task md5 backend inp st).2.1.status = .failed) ∧
    ((process_netcdf_file_task md5 backend inp st).2.1.status = .completed ↔
      ∃ b, parse_netcdf_data inp = .ok b) ∧
    (∀ e, parse_netcdf_data inp = .error e →
      (process_netcdf_file_task md5 backend inp st).1 = .failedR e ∧
      (process_netcdf_file_task md5 backend inp st).2.1.status = .failed) := by
  match hp : parse_netcdf_data inp with
  | .error e =>
    have ht := task_parse_error md5 backend inp st e hp
    rw [ht]
    refine ⟨Or.inr rfl, ?_, ?_⟩
    · simp only []
      constructor
      · intro h; cases h
      · rintro ⟨b, hb⟩
        cases hb
    · intro e' he'
      cases he'
      exact ⟨rfl, rfl⟩
  | .ok batches =>
    obtain ⟨h1, h2, _⟩ := task_parse_ok md5 backend inp st batches hp
    refine ⟨Or.inl h2, ?_, ?_⟩
    · exact ⟨fun _ => ⟨batches, rfl⟩, fun _ => h2⟩
    · intro e he
      cases he

theorem C3_witness :
    ((process_netcdf_file_task md5c .unavailable noLatLonInp pstate0).2.1.status
       = .completed ∨
     (process_netcdf_file_task md5c .unavailable noLatLonInp pstate0).2.1.status
       = .failed) ∧
    (parse_netcdf_data noLatLonInp =
       .error "NetCDF file must contain latitude and longitude" ∧
     (process_netcdf_file_task md5c .unavailable noLatLonInp pstate0).1 =
       .failedR "NetCDF file must contain latitude and longitude" ∧
     (process_netcdf_file_task md5c .unavailable noLatLonInp pstate0).2.1.status
       = .failed) :=
  ⟨(C3_amended_lifecycle md5c .unavailable noLatLonInp pstate0).1,
   parse_missing_latlon noLatLonInp (Or.inl (by decide)),
   ((C3_amended_lifecycle md5c .unavailable noLatLonInp pstate0).2.2
     "NetCDF file must contain latitude and longitude"
     (parse_missing_latlon noLatLonInp (Or.inl (by decide)))).1,
   ((C3_amended_lifecycle md5c .unavailable noLatLonInp pstate0).2.2
     "NetCDF file must contain latitude and longitude"
     (parse_missing_latlon noLatLonInp (Or.inl (by decide)))).2⟩

/-!
## Claim C4 — quality-control flag whitelist
-/

/-- C4: when a QC flag column is supplied, every flag attached to a stored
sample belongs to the whitelist — so a sample whose flag is outside the
whitelist (e.g. flag 4 under whitelist `[1, 2]`) is dropped regardless of
its value — and the surviving samples stay paired one-to-one with their
(whitelisted) flags. -/
theorem C4_qc_whitelist (qualityFlags : List ℤ) (maxDepth : ℚ)
    (inp : QCInput) (qcs : List ℤ) (hqc : inp.tempQC = some qcs)
    (_hne : qualityFlags ≠ []) :
    (∀ q ∈ (extract_temperature_data qualityFlags maxDepth inp).2,
      q ∈ qualityFlags) ∧
    (extract_temperature_data qualityFlags maxDepth inp).1.length =
      (extract_temperature_data qualityFlags maxDepth inp).2.length := by
  have hq1 : ∀ q ∈ maskFilter qcs
      (qcs.map (fun q => decide (q ∈ qualityFlags))), q ∈ qualityFlags := by
    intro q hq
    exact of_decide_eq_true (maskFilter_map_pred qcs _ q hq)
  match h0 : inp.temp with
  | none =>
    simp only [extract_temperature_data, h0]
    exact ⟨by intro q hq; simp at hq, rfl⟩
  | some temp0 =>
    simp only [extract_temperature_data, h0, hqc, tempAfterQC]
    by_cases hlen : qcs.length = temp0.length
    · rw [if_pos hlen]
      simp only []
      have hl1 : (maskFilter temp0
            (qcs.map (fun q => decide (q ∈ qualityFlags)))).length =
          (maskFilter qcs
            (qcs.map (fun q => decide (q ∈ qualityFlags)))).length :=
        maskFilter_length_eq _ temp0 qcs hlen.symm
      match h2 : inp.pres with
      | none => exact ⟨hq1, hl1⟩
      | some pres0 =>
        simp only []
        rcases h3 : presAfterQC qualityFlags pres0 inp.presQC with _ | pres1
        · exact ⟨by intro q hq; simp at hq, rfl⟩
        · simp only []
          simp only [tempDepthFilter]
          set temp1 := maskFilter temp0
            (qcs.map (fun q => decide (q ∈ qualityFlags))) with htemp1
          set qc1 := maskFilter qcs
            (qcs.map (fun q => decide (q ∈ qualityFlags))) with hqc1
          by_cases hlen2 : temp1.length = pres1.length
          · rw [if_pos hlen2]
            simp only []
            by_cases hemp : qc1.isEmpty = true
            · rw [if_pos hemp]
              refine ⟨fun q hq => hq1 q hq, ?_⟩
              rw [List.isEmpty_iff] at hemp
              have h4 : temp1.length = 0 := by
                rw [hl1, hemp]
                rfl
              rw [List.length_eq_zero] at h4
              rw [h4, hemp]
              simp [maskFilter]
            · rw [if_neg hemp]
              refine ⟨fun q hq => hq1 q (maskFilter_mem qc1 _ q hq), ?_⟩
              exact maskFilter_length_eq _ temp1 qc1 hl1
          · rw [if_neg hlen2]
            exact ⟨by intro q hq; simp at hq, rfl⟩
    · rw [if_neg hlen]
      simp only []
      exact ⟨by intro q hq; simp at hq, rfl⟩

/-- Scenario C of the spec: a single sample with QC flag 4 under whitelist
`[1, 2]`. -/
def qcScenarioC : QCInput :=
  { temp := some [.fin 30], tempQC := some [4], pres := none, presQC := none }

theorem C4_witness :
    (qcScenarioC.tempQC = some [4] ∧ ([1, 2] : List ℤ) ≠ []) ∧
    ((∀ q ∈ (extract_temperature_data [1, 2] 2000 qcScenarioC).2,
       q ∈ ([1, 2] : List ℤ)) ∧
     (extract_temperature_data [1, 2] 2000 qcScenarioC).1.length =
       (extract_temperature_data [1, 2] 2000 qcScenarioC).2.length) ∧
    extract_temperature_data [1, 2] 2000 qcScenarioC = ([], []) :=
  ⟨⟨rfl, by decide⟩,
   C4_qc_whitelist [1, 2] 2000 qcScenarioC [4] rfl (by decide),
   by decide⟩

/-!
## Claim C6 — Record Batcher flush boundaries
-/

lemma depthAt_single_nan (li : ℕ) : depthAt [some .nan] li = .ok none := by
  match li with
  | 0 => rfl
  | _ + 1 => rfl

/-- With pressures `[NaN]`, shared temperatures `replicate n 20` and no
salinity, every level yields exactly the one temperature record. -/
lemma runLevels_temps_only (t : ℕ) (la lo : FVal) (n : ℕ) :
    ∀ m li, li + m ≤ n →
    runLevels t la lo true [some .nan] (List.replicate n (.fin 20)) [] li m =
    (List.replicate m
      { varname := "temperature", time := t, lat := la, lon := lo,
        depth := none, value := .fin 20 : Record }, true) := by
  intro m
  induction m with
  | zero => intro li _; rfl
  | succ m ih =>
    intro li h
    have hlv : levelRecords t la lo true [some .nan]
        (List.replicate n (.fin 20)) [] li =
        .ok [{ varname := "temperature", time := t, lat := la, lon := lo,
               depth := none, value := .fin 20 : Record }] := by
      unfold levelRecords
      rw [depthAt_single_nan]
      simp only []
      congr 1
      unfold channelRecAt presRecAt
      rw [List.get?_eq_getElem?, List.getElem?_replicate,
        if_pos (show li < n by omega)]
      simp [FVal.isnan, FVal.isinf]
    unfold runLevels
    rw [hlv]
    simp only []
    rw [ih (li + 1) (by omega)]
    simp [List.replicate_succ]

/-- One record of the 2500-level scenario. -/
def recC6 : Record :=
  { varname := "temperature", time := 0, lat := .fin 10, lon := .fin 80,
    depth := none, value := .fin 20 }

/-- A file with ONE in-region profile carrying `n` accepted temperature
levels. -/
def inpTemps (n : ℕ) : NCInput :=
  { vars := [("lat", .d1 [.fin 10]), ("lon", .d1 [.fin 80]),
             ("pres", .d1 [.nan]),
             ("temp", .d1 (List.replicate n (.fin 20)))],
    times := [], now := 0, failProfiles := [], finalFlushFails := false }

/-- The 2500-level instance of Scenario E's record count. -/
def inpC6 : NCInput := inpTemps 2500

lemma stepProfile_eq (ch : Channels) (st : WalkSt) (i : ℕ) :
    stepProfile ch st i =
      if ((processProfile ch i).2 &&
          decide (1000 ≤ (st.buffer ++ (processProfile ch i).1).length)) then
        { buffer := [],
          flushes := st.flushes ++ [st.buffer ++ (processProfile ch i).1] }
      else
        { buffer := st.buffer ++ (processProfile ch i).1,
          flushes := st.flushes } := rfl

lemma processProfile_inpTemps (n : ℕ) (hn : 1 ≤ n) :
    processProfile (mkChannels (inpTemps n) "lat" "lon") 0 =
      (List.replicate n recC6, true) := by
  have h1 : processProfile (mkChannels (inpTemps n) "lat" "lon") 0 =
      runLevels 0 (.fin 10) (.fin 80) true [some .nan]
        (List.replicate n (.fin 20)) [] 0
        (max 1 (max (List.replicate n (FVal.fin 20)).length 0)) := rfl
  rw [h1, List.length_replicate]
  rw [show max 1 (max n 0) = n by omega]
  exact runLevels_temps_only 0 (.fin 10) (.fin 80) n n 0 (by omega)

lemma walk_inpTemps (n : ℕ) (hn : 1000 ≤ n) :
    walkProfiles (mkChannels (inpTemps n) "lat" "lon") =
      { buffer := [], flushes := [List.replicate n recC6] } := by
  have hlen : (mkChannels (inpTemps n) "lat" "lon").lats.length = 1 := rfl
  unfold walkProfiles
  rw [hlen]
  show stepProfile (mkChannels (inpTemps n) "lat" "lon") ⟨[], []⟩ 0 = _
  rw [stepProfile_eq, processProfile_inpTemps n (by omega)]
  simp only [List.nil_append, List.length_replicate]
  rw [if_pos (by simp [hn])]

/-- C6 as stated is false: the buffer is only examined after a whole profile,
so a single profile contributing 2500 accepted records is flushed as ONE
bulk insert of 2500 rows — not three of 1000, 1000 and 500 — even though the
run accepted exactly 2500 records. -/
theorem C6_counterexample :
    parse_netcdf_data inpC6 = .ok [List.replicate 2500 recC6] ∧
    (parsedRecords inpC6).length = 2500 ∧
    [List.replicate 2500 recC6].map List.length ≠ [1000, 1000, 500] := by
  have hp : parse_netcdf_data inpC6 = .ok [List.replicate 2500 recC6] := by
    rw [show inpC6 = inpTemps 2500 from rfl,
      parse_resolved (inpTemps 2500) "lat" "lon" (by decide) (by decide),
      walk_inpTemps 2500 (by omega)]
    rfl
  refine ⟨hp, ?_, ?_⟩
  · rw [parsedRecords_of_ok inpC6 _ hp]
    simp only [List.flatten_cons, List.flatten_nil, List.append_nil,
      List.length_replicate]
  · simp only [List.map_cons, List.map_nil, List.length_replicate]
    decide

/-- Sizes-invariant of the walker under one-record-per-profile runs. -/
lemma walk_ones (ch : Channels)
    (h : ∀ i, i < ch.lats.length →
      ((processProfile ch i).1).length = 1 ∧ (processProfile ch i).2 = true) :
    ∀ k, k ≤ ch.lats.length →
      (((List.range k).foldl (stepProfile ch) ⟨[], []⟩).buffer.length =
        k % 1000 ∧
       ((List.range k).foldl (stepProfile ch) ⟨[], []⟩).flushes.map
         List.length = List.replicate (k / 1000) 1000) := by
  intro k
  induction k with
  | zero => intro _; exact ⟨rfl, rfl⟩
  | succ k ih =>
    intro hk
    obtain ⟨ihb, ihf⟩ := ih (by omega)
    obtain ⟨h1, h2⟩ := h k (by omega)
    rw [List.range_succ, List.foldl_append, List.foldl_cons, List.foldl_nil]
    rw [stepProfile_eq, h2]
    have hlen : (((List.range k).foldl (stepProfile ch) ⟨[], []⟩).buffer ++
        (processProfile ch k).1).length = k % 1000 + 1 := by
      rw [List.length_append, ihb, h1]
    by_cases hc : k % 1000 = 999
    · rw [if_pos (by rw [hlen]; simp [hc])]
      constructor
      · show ([] : List Record).length = (k + 1) % 1000
        simp only [List.length_nil]
        omega
      · show (((List.range k).foldl (stepProfile ch) ⟨[], []⟩).flushes ++
            [((List.range k).foldl (stepProfile ch) ⟨[], []⟩).buffer ++
              (processProfile ch k).1]).map List.length =
          List.replicate ((k + 1) / 1000) 1000
        rw [List.map_append, ihf]
        simp only [List.map_cons, List.map_nil]
        rw [hlen, hc, show (k + 1) / 1000 = k / 1000 + 1 by omega,
          List.replicate_succ']
    · rw [if_neg (by rw [hlen]; simp; omega)]
      constructor
      · show (((List.range k).foldl (stepProfile ch) ⟨[], []⟩).buffer ++
            (processProfile ch k).1).length = (k + 1) % 1000
        rw [hlen]
        omega
      · show (((List.range k).foldl (stepProfile ch) ⟨[], []⟩).flushes).map
            List.length = List.replicate ((k + 1) / 1000) 1000
        rw [ihf]
        congr 1
        omega

lemma foldl_flushes_ge (ch : Channels) (is : List ℕ) (st : WalkSt)
    (h : ∀ b ∈ st.flushes, 1000 ≤ b.length) :
    ∀ b ∈ (is.foldl (stepProfile ch) st).flushes, 1000 ≤ b.length := by
  induction is generalizing st with
  | nil => exact h
  | cons i rest ih =>
    simp only [List.foldl_cons]
    apply ih
    intro b hb
    unfold stepProfile at hb
    simp only [] at hb
    split at hb
    · rename_i hc
      simp only [List.mem_append, List.mem_singleton] at hb
      rcases hb with hb | hb
      · exact h b hb
      · subst hb
        simp only [Bool.and_eq_true, decide_eq_true_eq] at hc
        exact hc.2
    · exact h b hb

/-- C6 amended: the flush check runs once per profile iteration, so every
mid-run bulk insert carries at least 1000 records (possibly more, since a
whole profile is appended before the check); a remaining partial batch is
inserted at completion.  When the 2500 accepted records arrive one per
profile — the reading under which Scenario E holds — the run performs
exactly the three bulk inserts of sizes 1000, 1000 and 500. -/
theorem C6_amended_batching :
    (∀ ch, ∀ b ∈ (walkProfiles ch).flushes, 1000 ≤ b.length) ∧
    (∀ ch,
      (∀ i, i < ch.lats.length →
        ((processProfile ch i).1).length = 1 ∧
        (processProfile ch i).2 = true) →
      ch.lats.length = 2500 →
      (walkProfiles ch).flushes.map List.length ++
        [(walkProfiles ch).buffer.length] = [1000, 1000, 500]) := by
  constructor
  · intro ch
    unfold walkProfiles
    exact foldl_flushes_ge ch _ _ (by intro b hb; simp at hb)
  · intro ch h hn
    obtain ⟨hb, hf⟩ := walk_ones ch h ch.lats.length le_rfl
    unfold walkProfiles
    rw [hn] at hb hf
    rw [hn, hf, hb]
    decide

/-- 2500 one-level profiles sharing a 1-D temperature array. -/
def ch2500 : Channels :=
  { lats := List.replicate 2500 (.fin 10)
    lons := List.replicate 2500 (.fin 80)
    times := [], now := 0, presArr := some (.d1 [.nan])
    tempArr := some (.d1 [.fin 20]), psalArr := none, failProfiles := [] }

lemma processProfile_ch2500 (i : ℕ) (hi : i < 2500) :
    processProfile ch2500 i = ([recC6], true) := by
  have hla : ch2500.lats.get? i = some (.fin 10) := by
    show (List.replicate 2500 (FVal.fin 10)).get? i = some (.fin 10)
    simp only [List.get?_eq_getElem?, List.getElem?_replicate]
    rw [if_pos hi]
  have hlo : ch2500.lons.get? i = some (.fin 80) := by
    show (List.replicate 2500 (FVal.fin 80)).get? i = some (.fin 80)
    simp only [List.get?_eq_getElem?, List.getElem?_replicate]
    rw [if_pos hi]
  unfold processProfile
  rw [hla, hlo]
  rfl

theorem C6_witness :
    ((∀ i, i < ch2500.lats.length →
        ((processProfile ch2500 i).1).length = 1 ∧
        (processProfile ch2500 i).2 = true) ∧
     ch2500.lats.length = 2500) ∧
    (walkProfiles ch2500).flushes.map List.length ++
      [(walkProfiles ch2500).buffer.length] = [1000, 1000, 500] := by
  have hlen : ch2500.lats.length = 2500 := by
    show (List.replicate 2500 (FVal.fin 10)).length = 2500
    rw [List.length_replicate]
  have h : ∀ i, i < ch2500.lats.length →
      ((processProfile ch2500 i).1).length = 1 ∧
      (processProfile ch2500 i).2 = true := by
    intro i hi
    rw [hlen] at hi
    rw [processProfile_ch2500 i hi]
    exact ⟨rfl, rfl⟩
  exact ⟨⟨h, hlen⟩, C6_amended_batching.2 ch2500 h hlen⟩

/-!
## Claim C7 — deterministic fallback embedding
-/

lemma map_range_getD (f : ℕ → ℚ) (n i : ℕ) (hi : i < n) :
    ((List.range n).map f).getD i 0 = f i := by
  rw [List.getD_eq_getElem?_getD, List.getElem?_map, List.getElem?_range hi]
  rfl

/-- C7: `generate_fallback_embedding` is a pure function of the MD5 digest of
the text, hence two calls on the same text agree bit for bit; the vector has
exactly 768 components; component `i` is the cyclic expansion
`(digest[i % 16] - 128) / 128`; and every component lies in `[-1, 1]`. -/
theorem C7_fallback_embedding (md5 : String → List ℕ) (text : String)
    (hlen : (md5 text).length = 16) (hbytes : ∀ b ∈ md5 text, b < 256) :
    generate_fallback_embedding (md5 text) =
      generate_fallback_embedding (md5 text) ∧
    (generate_fallback_embedding (md5 text)).length = 768 ∧
    (∀ i, i < 768 →
      (generate_fallback_embedding (md5 text)).getD i 0 =
        (((md5 text).getD (i % 16) 0 : ℚ) - 128) / 128) ∧
    (∀ q ∈ generate_fallback_embedding (md5 text), -1 ≤ q ∧ q ≤ 1) := by
  refine ⟨rfl, ?_, ?_, ?_⟩
  · unfold generate_fallback_embedding
    rw [List.length_map, List.length_range]
  · intro i hi
    unfold generate_fallback_embedding
    rw [map_range_getD _ 768 i hi, hlen]
  · intro q hq
    unfold generate_fallback_embedding at hq
    rw [List.mem_map] at hq
    obtain ⟨i, _, hqi⟩ := hq
    subst hqi
    have h16 : i % (md5 text).length < (md5 text).length := by
      rw [hlen]; omega
    have hmem : (md5 text).getD (i % (md5 text).length) 0 ∈ md5 text := by
      rw [List.getD_eq_getElem?_getD, List.getElem?_eq_getElem h16]
      exact List.getElem_mem h16
    have hb := hbytes _ hmem
    have h0 : (0 : ℚ) ≤ ((md5 text).getD (i % (md5 text).length) 0 : ℚ) :=
      Nat.cast_nonneg _
    have h1 : ((md5 text).getD (i % (md5 text).length) 0 : ℚ) < 256 := by
      exact_mod_cast hb
    constructor
    · rw [le_div_iff₀ (by norm_num : (0 : ℚ) < 128)]
      linarith
    · rw [div_le_iff₀ (by norm_num : (0 : ℚ) < 128)]
      linarith

theorem C7_witness :
    (((fun _ : String => List.range 16) "x").length = 16 ∧
     (∀ b ∈ (fun _ : String => List.range 16) "x", b < 256)) ∧
    (generate_fallback_embedding ((fun _ : String => List.range 16) "x") =
       generate_fallback_embedding ((fun _ : String => List.range 16) "x") ∧
     (generate_fallback_embedding
       ((fun _ : String => List.range 16) "x")).length = 768 ∧
     (∀ i, i < 768 →
       (generate_fallback_embedding
         ((fun _ : String => List.range 16) "x")).getD i 0 =
         ((((fun _ : String => List.range 16) "x").getD (i % 16) 0 : ℚ) - 128)
           / 128) ∧
     (∀ q ∈ generate_fallback_embedding ((fun _ : String => List.range 16) "x"),
       -1 ≤ q ∧ q ≤ 1)) :=
  ⟨⟨by decide, by decide⟩,
   C7_fallback_embedding (fun _ => List.range 16) "x" (by decide) (by decide)⟩

/-!
## Claim C8 — embedding-service failure handling
-/

/-- C8 as stated is false: on a valid file with at least one extracted
measurement, if the embedding library is importable but its model load or
`encode` call raises (service unreachable), `generate_embeddings` swallows
the exception and creates NO embedding rows at all — the deterministic
fallback is not used — although the run still reaches `completed`. -/
theorem C8_counterexample :
    (process_netcdf_file_task md5c .raises inpOneTemp pstate0).2.1.values ≠ []
      ∧
    (process_netcdf_file_task md5c .raises inpOneTemp pstate0).2.1.embeds = []
      ∧
    (process_netcdf_file_task md5c .raises inpOneTemp pstate0).2.1.status =
      .completed := by
  refine ⟨by decide, by decide, by decide⟩

lemma embedRowsForVar_fallback (md5 : SummaryData → List ℕ)
    (enc : SummaryData → List ℚ) (values : List Record) (v : String)
    (row : EmbRow) (hrow : row ∈ embedRowsForVar md5 enc false values v) :
    row.embedding = generate_fallback_embedding (md5 row.summary) := by
  unfold embedRowsForVar at hrow
  simp only [List.mem_cons] at hrow
  rcases hrow with h | h
  · subst h
    simp [embedVector]
  · rw [List.mem_filterMap] at h
    obtain ⟨reg, _, hreg⟩ := h
    split at hreg
    · cases hreg
    · injection hreg with h2
      subst h2
      simp [embedVector]

/-- C8 amended: only when the embedding library is NOT importable does the
pipeline fall back — then, for a dataset with measurements, embedding rows
are appended and each one's vector is the deterministic fallback of its
summary; when the library is present but its call raises, the error is
swallowed and the state is returned untouched (no rows); in both cases a run
whose extraction succeeded still ends `completed`. -/
theorem C8_amended_fallback_only_when_unavailable :
    (∀ md5 st, st.values ≠ [] →
      ∃ rows, rows ≠ [] ∧
        (generate_embeddings md5 .unavailable st).1.embeds =
          st.embeds ++ rows ∧
        (∀ row ∈ rows,
          row.embedding = generate_fallback_embedding (md5 row.summary)) ∧
        (generate_embeddings md5 .unavailable st).2 = true) ∧
    (∀ md5 st, (generate_embeddings md5 .raises st).1 = st) ∧
    (∀ md5 backend inp st batches, parse_netcdf_data inp = .ok batches →
      (process_netcdf_file_task md5 backend inp st).2.1.status = .completed)
    := by
  refine ⟨?_, ?_, ?_⟩
  · intro md5 st hne
    have hemp : st.values.isEmpty = false := by
      cases hv : st.values with
      | nil => exact absurd hv hne
      | cons a l => rfl
    refine ⟨((distinctVars st.values).map
      (embedRowsForVar md5 (fun _ => []) false st.values)).flatten,
      ?_, ?_, ?_, ?_⟩
    · have hd : distinctVars st.values ≠ [] := by
        unfold distinctVars
        intro hcontra
        rw [List.dedup_eq_nil, List.map_eq_nil_iff] at hcontra
        exact hne hcontra
      cases hd' : distinctVars st.values with
      | nil => exact absurd hd' hd
      | cons v rest =>
        simp only [List.map_cons, List.flatten_cons]
        unfold embedRowsForVar
        simp only []
        rw [List.cons_append]
        exact List.cons_ne_nil _ _
    · unfold generate_embeddings
      rw [hemp]
      rfl
    · intro row hrow
      rw [List.mem_flatten] at hrow
      obtain ⟨l, hl, hrl⟩ := hrow
      rw [List.mem_map] at hl
      obtain ⟨v, _, hlv⟩ := hl
      subst hlv
      exact embedRowsForVar_fallback md5 _ st.values v row hrl
    · unfold generate_embeddings
      rw [hemp]
      rfl
  · intro md5 st
    unfold generate_embeddings
    split
    · rfl
    · rfl
  · intro md5 backend inp st batches hp
    exact (task_parse_ok md5 backend inp st batches hp).2.1

def pstateOne : PState :=
  { status := .processing, values := [recOneTemp], embeds := [] }

theorem C8_witness :
    pstateOne.values ≠ [] ∧
    (∃ rows, rows ≠ [] ∧
      (generate_embeddings md5c .unavailable pstateOne).1.embeds =
        pstateOne.embeds ++ rows ∧
      (∀ row ∈ rows,
        row.embedding = generate_fallback_embedding (md5c row.summary)) ∧
      (generate_embeddings md5c .unavailable pstateOne).2 = true) :=
  ⟨by decide,
   C8_amended_fallback_only_when_unavailable.1 md5c pstateOne (by decide)⟩

/-!
## Claim C9 — idempotence of the batch flush
-/

lemma flushValues_payloads : ∀ (recs : List Record) (t : ValuesTable),
    (flushValues t recs).rows.map ValueRow.payload =
      t.rows.map ValueRow.payload ++ recs ∧
    (flushValues t recs).rows.length = t.rows.length + recs.length := by
  intro recs
  induction recs with
  | nil =>
    intro t
    exact ⟨by simp [flushValues, bulk_create_ignore_conflicts], by
      simp [flushValues, bulk_create_ignore_conflicts]⟩
  | cons r rest ih =>
    intro t
    have hstep : flushValues t (r :: rest) =
        flushValues
          { rows := t.rows ++ [⟨t.nextId, r⟩], nextId := t.nextId + 1 }
          rest := by
      unfold flushValues bulk_create_ignore_conflicts netcdfValueUniqueKeys
      simp
    rw [hstep]
    obtain ⟨ih1, ih2⟩ := ih
      { rows := t.rows ++ [⟨t.nextId, r⟩], nextId := t.nextId + 1 }
    constructor
    · rw [ih1]
      simp
    · rw [ih2]
      simp only [List.length_append, List.length_cons, List.length_nil,
        List.length_singleton]
      omega

/-- C9 as stated is false: `ignore_conflicts=True` is passed, but
`NetCDFValue` declares no unique constraint besides its auto primary key, so
nothing ever conflicts — re-running the flush on an already-flushed buffer
inserts every record a second time instead of being a no-op. -/
theorem C9_counterexample :
    (flushValues (flushValues ⟨[], 0⟩ [recOneTemp]) [recOneTemp]).rows ≠
      (flushValues ⟨[], 0⟩ [recOneTemp]).rows ∧
    (flushValues (flushValues ⟨[], 0⟩ [recOneTemp]) [recOneTemp]).rows.length
      = 2 ∧
    (flushValues ⟨[], 0⟩ [recOneTemp]).rows.length = 1 := by
  exact ⟨by decide, by decide, by decide⟩

/-- C9 amended: because the `dataset_values` model declares no unique key,
the flush appends every record unconditionally; flushing the same buffer a
second time therefore appends the records again (with fresh ids) rather than
skipping them, doubling their rows. -/
theorem C9_amended_reflush_duplicates (t : ValuesTable) (recs : List Record) :
    (flushValues (flushValues t recs) recs).rows.map ValueRow.payload =
      t.rows.map ValueRow.payload ++ recs ++ recs ∧
    (flushValues (flushValues t recs) recs).rows.length =
      t.rows.length + 2 * recs.length := by
  obtain ⟨h1, h2⟩ := flushValues_payloads recs t
  obtain ⟨h3, h4⟩ := flushValues_payloads recs (flushValues t recs)
  constructor
  · rw [h3, h1]
  · rw [h4, h2]
    omega

end FloatChat
